import Mathlib

/-!
Verification development for the Sonicarbi arbitrage scanner.

Each Python component relevant to the specification is shallowly embedded as an
executable Lean definition: floating point / arbitrary-precision decimal values
are modelled as exact rationals, raised exceptions become `Option.none` (or a
dedicated constructor), and all external effects (RPC reads, pool lookups,
provider sends, wall-clock time) are passed in explicitly as parameters.
-/

namespace Sonicarbi

/-! ## Multi-hop routing (`utils/routing.py`) -/

/-- Check membership of an unordered token pair in the available pair set
(`MultiHopRouter._pair_exists`): a pair is usable in either direction. -/
def pair_exists (a b : String) (ps : List (String × String)) : Bool :=
  ps.contains (a, b) || ps.contains (b, a)

/-- Check that every consecutive pair of a route is available
(`MultiHopRouter._route_is_valid`). -/
def route_is_valid (route : List String) (ps : List (String × String)) : Bool :=
  (route.zip route.tail).all fun ab => pair_exists ab.1 ab.2 ps

/-- Route usability under an optional pair filter: with no filter every route
is usable, otherwise every consecutive pair must exist. -/
def usable_route (aps : Option (List (String × String))) (route : List String) : Bool :=
  match aps with
  | none => true
  | some ps => route_is_valid route ps

/-- Append a route unless it was already generated (the `seen_routes`
deduplication set of `MultiHopRouter.find_routes`). -/
def addRoute (acc : List (List String)) (r : List String) : List (List String) :=
  if acc.contains r then acc else acc ++ [r]

/-- Candidate routes of `MultiHopRouter.find_routes` in generation order:
the direct route, then one-intermediary routes through each base token that is
distinct from both endpoints, then (for `max_hops = 3`, with at least two base
tokens) two-intermediary routes through ordered pairs of distinct base tokens.
Each candidate is kept only if usable under the pair filter. -/
def candidate_routes (bts : List String) (tin tout : String)
    (usable : List String → Bool) (maxHops : ℤ) : List (List String) :=
  (if usable [tin, tout] = true then [[tin, tout]] else [])
  ++ (if 2 ≤ maxHops then
        bts.flatMap fun b =>
          if b = tin ∨ b = tout then []
          else if usable [tin, b, tout] = true then [[tin, b, tout]] else []
      else [])
  ++ (if 3 ≤ maxHops ∧ 2 ≤ bts.length then
        bts.flatMap fun b1 =>
          bts.flatMap fun b2 =>
            if b1 = b2 ∨ b1 = tin ∨ b1 = tout ∨ b2 = tin ∨ b2 = tout then []
            else if usable [tin, b1, b2, tout] = true then [[tin, b1, b2, tout]] else []
      else [])

/-- Embedding of `MultiHopRouter.find_routes`: validates the inputs (non-empty
distinct endpoint symbols, hop bound within `[1, 3]`; a `ValueError` is
`none`), then accumulates the candidate routes with deduplication. -/
def find_routes (bts : List String) (tin tout : String)
    (aps : Option (List (String × String))) (maxHops : ℤ) :
    Option (List (List String)) :=
  if tin = "" ∨ tout = "" then none
  else if tin = tout then none
  else if maxHops < 1 ∨ 3 < maxHops then none
  else some ((candidate_routes bts tin tout (usable_route aps) maxHops).foldl addRoute [])

/-- Route cost estimate record (`routing.RouteInfo`). -/
structure RouteInfo where
  path : List String
  num_swaps : ℕ
  estimated_gas : ℤ
  estimated_fee_pct : ℚ
deriving Repr, DecidableEq

/-- Embedding of `MultiHopRouter.estimate_route_cost`: validates the route and
parameters (a `ValueError` is `none`) and compounds the per-swap fee, so the
total fee fraction over `n` swaps is `1 - (1 - f) ^ n`. -/
def estimate_route_cost (route : List String) (gas_per_swap : ℤ)
    (fee_per_swap : ℚ) : Option RouteInfo :=
  if route.length < 2 then none
  else if gas_per_swap ≤ 0 then none
  else if fee_per_swap < 0 ∨ 1 ≤ fee_per_swap then none
  else
    let n := route.length - 1
    some { path := route
           num_swaps := n
           estimated_gas := n * gas_per_swap
           estimated_fee_pct := (1 - (1 - fee_per_swap) ^ n) * 100 }

/-- One step of circular path accumulation in `PathFinder.find_arbitrage_paths`:
once the path cap has been reached generation has stopped (first component of
the state is the emitted list, second is the stop flag); otherwise a path not
seen before is appended, and the cap check runs right after the append. -/
def pushPath (maxPaths : ℕ) (st : List (List String) × Bool) (p : List String) :
    List (List String) × Bool :=
  if st.2 then st
  else if st.1.contains p then st
  else
    let ps := st.1 ++ [p]
    (ps, decide (maxPaths ≤ ps.length))

/-- Candidate circular paths of `PathFinder.find_arbitrage_paths` in generation
order: two-hop cycles through every other token, then (hop bound permitting)
three-hop cycles through ordered pairs of distinct other tokens, then four-hop
cycles through ordered triples of distinct tokens drawn from the first ten
other tokens. -/
def candidate_paths (others : List String) (start : String) (maxHops : ℤ) :
    List (List String) :=
  (others.map fun t => [start, t, start])
  ++ (if 3 ≤ maxHops then
        others.flatMap fun t1 =>
          others.flatMap fun t2 =>
            if t1 = t2 then [] else [[start, t1, t2, start]]
      else [])
  ++ (if 4 ≤ maxHops then
        (others.take 10).flatMap fun t1 =>
          (others.take 10).flatMap fun t2 =>
            if t2 = t1 then []
            else (others.take 10).flatMap fun t3 =>
              if t3 = t1 ∨ t3 = t2 then [] else [[start, t1, t2, t3, start]]
      else [])

/-- Embedding of `PathFinder.find_arbitrage_paths` (with the token-universe
bound of `PathFinder.__init__`): validates the inputs (at most 20 tokens, a
known start token, hop bound within `[2, 4]`; a `ValueError` is `none`), then
accumulates deduplicated circular paths, stopping at the path cap. -/
def find_arbitrage_paths (tokens : List String) (start : String)
    (maxHops : ℤ) (maxPaths : ℕ) : Option (List (List String)) :=
  if 20 < tokens.length then none
  else if ¬ tokens.contains start then none
  else if maxHops < 2 ∨ 4 < maxHops then none
  else
    let others := tokens.filter fun s => s ≠ start
    some ((candidate_paths others start maxHops).foldl (pushPath maxPaths) ([], false)).1

/-! ## Slippage / price-impact model (`utils/slippage_calculator.py`) -/

/-- Token descriptor (symbol and on-chain decimal precision). -/
structure Token where
  symbol : String
  decimals : ℕ
deriving Repr, DecidableEq

/-- Result record of `SlippageCalculator.calculate_v2_slippage`, with reserves
and amounts in human (decimal-adjusted) units. -/
structure SlippageResult where
  dex : String
  reserve_in : ℚ
  reserve_out : ℚ
  amount_in : ℚ
  amount_out : ℚ
  spot_price : ℚ
  effective_price : ℚ
  price_impact_pct : ℚ
  slippage_pct : ℚ
  liquidity_frac : ℚ
  is_high_impact : Bool
  is_very_high_impact : Bool
deriving Repr, DecidableEq

/-- Embedding of `SlippageCalculator.calculate_v2_slippage`. The pool lookup
result is passed in as raw-unit reserves oriented for the queried direction
(`none` when the pair does not exist or the read failed); every internal
error return or raised exception is `none`. The output amount follows the
constant-product formula with the fee applied to the input amount, computed
over the raw-unit reserves exactly as in the source. -/
def calculate_v2_slippage (dex_name : String) (fee : ℚ) (pool : Option (ℕ × ℕ))
    (tin tout : Token) (amount_in : ℚ) : Option SlippageResult :=
  match pool with
  | none => none
  | some (reserve_in, reserve_out) =>
    let reserve_in_h : ℚ := (reserve_in : ℚ) / 10 ^ tin.decimals
    let reserve_out_h : ℚ := (reserve_out : ℚ) / 10 ^ tout.decimals
    if reserve_in_h = 0 then none
    else
      let price_impact_pct := amount_in / reserve_in_h * 100
      let amount_in_with_fee := amount_in * (1 - fee)
      let amount_in_with_fee_wei := amount_in_with_fee * 10 ^ tin.decimals
      let amount_out := amount_in_with_fee_wei * (reserve_out : ℚ)
        / ((reserve_in : ℚ) + amount_in_with_fee_wei) / 10 ^ tout.decimals
      let spot_price := reserve_out_h / reserve_in_h
      if amount_in = 0 then none
      else if spot_price = 0 then none
      else
        let effective_price := amount_out / amount_in
        some { dex := dex_name
               reserve_in := reserve_in_h
               reserve_out := reserve_out_h
               amount_in := amount_in
               amount_out := amount_out
               spot_price := spot_price
               effective_price := effective_price
               price_impact_pct := price_impact_pct
               slippage_pct := (spot_price - effective_price) / spot_price * 100
               liquidity_frac := amount_in / reserve_in_h
               is_high_impact := decide (1 < price_impact_pct)
               is_very_high_impact := decide (5 < price_impact_pct) }

/-- DEX configuration entry: AMM family tag and nominal fee rate. -/
structure DexCfg where
  dtype : String
  fee : ℚ
deriving Repr, DecidableEq

/-- Breakdown record returned by `validate_arbitrage_slippage`. -/
structure ArbSlippage where
  buy : Option SlippageResult
  sell : Option SlippageResult
  total_slippage_pct : ℚ
  is_valid : Bool
deriving Repr, DecidableEq

/-- Embedding of `SlippageCalculator.validate_arbitrage_slippage`. `dexes`
resolves a DEX name to its configuration (a missing key raises, hence
`(false, none)`), `pools` resolves (dex, token-in, token-out) to oriented
raw reserves. A constant-product buy leg that cannot be computed fails the
check; the sell leg is computed with the buy leg's output amount as its
input; a non-constant-product buy DEX together with a constant-product sell
DEX raises on the unbound buy result in the source, hence `(false, none)`.
When both legs are skipped (neither DEX is constant-product) the summed
slippage is zero. -/
def validate_arbitrage_slippage (dexes : String → Option DexCfg)
    (pools : String → Token → Token → Option (ℕ × ℕ))
    (buy_dex sell_dex : String) (tin tout : Token)
    (amount max_slippage_pct : ℚ) : Bool × Option ArbSlippage :=
  match dexes buy_dex, dexes sell_dex with
  | some bcfg, some scfg =>
    if bcfg.dtype = "uniswap_v2" then
      match calculate_v2_slippage buy_dex bcfg.fee (pools buy_dex tin tout) tin tout amount with
      | none => (false, none)
      | some bs =>
        if scfg.dtype = "uniswap_v2" then
          match calculate_v2_slippage sell_dex scfg.fee (pools sell_dex tout tin)
              tout tin bs.amount_out with
          | none => (false, none)
          | some ss =>
            let total := bs.slippage_pct + ss.slippage_pct
            let ok := decide (total ≤ max_slippage_pct)
            (ok, some { buy := some bs, sell := some ss, total_slippage_pct := total,
                        is_valid := ok })
        else
          let ok := decide (bs.slippage_pct ≤ max_slippage_pct)
          (ok, some { buy := some bs, sell := none, total_slippage_pct := bs.slippage_pct,
                      is_valid := ok })
    else
      if scfg.dtype = "uniswap_v2" then (false, none)
      else
        let ok := decide ((0 : ℚ) ≤ max_slippage_pct)
        (ok, some { buy := none, sell := none, total_slippage_pct := 0, is_valid := ok })
  | _, _ => (false, none)

/-! ## Arbitrage detector (`src/scanner.py`) -/

/-- Embedding of `GasEstimator.estimate_arbitrage_gas`: fixed base transaction
gas (21000) plus flashloan overhead (50000) plus one swap per leg, costed per
hop at the concentrated-liquidity rate (180000) or the constant-product rate
(130000). -/
def estimate_arbitrage_gas (buy_dex_type sell_dex_type : String) (num_hops : ℕ) : ℕ :=
  21000 + 50000
    + (if buy_dex_type = "concentrated" then 180000 * num_hops else 130000 * num_hops)
    + (if sell_dex_type = "concentrated" then 180000 * num_hops else 130000 * num_hops)

/-- Embedding of `GasPriceFetcher.estimate_transaction_cost_usd` composed with
`estimate_transaction_cost_eth`: gas units times the gas price (gwei converted
to the reference asset) times the reference asset's USD price. -/
def estimate_transaction_cost_usd (gas_units : ℕ) (gas_price_gwei eth_price_usd : ℚ) : ℚ :=
  (gas_units : ℚ) * (gas_price_gwei / 1000000000) * eth_price_usd

/-- Gross profit in output-token units (`profit_tokens` in
`ScrollDEXScanner._check_arbitrage_direction`): the fee-inclusive price
difference, with no further fee adjustment. -/
def gross_profit_tokens (buy_price sell_price : ℚ) : ℚ :=
  sell_price - buy_price

/-- USD conversion of gross profit and flashloan fee in
`_check_arbitrage_direction`: stablecoin output legs are 1:1 USD, a volatile
reference-asset leg uses the fetched USD price, all other symbols abstain
(both USD figures zero). -/
def gross_and_fee_usd (tin tout : String)
    (profit_tokens flashloan_fee_tokens amount eth_price : ℚ) : ℚ × ℚ :=
  if tout = "USDC" ∨ tout = "USDT" then
    (profit_tokens * amount, flashloan_fee_tokens * amount)
  else if tout = "WETH" then
    (profit_tokens * amount * eth_price, flashloan_fee_tokens * eth_price)
  else if tin = "USDC" ∨ tin = "USDT" then
    (profit_tokens * amount, flashloan_fee_tokens)
  else if tin = "WETH" then
    (profit_tokens * amount * eth_price, flashloan_fee_tokens * eth_price)
  else (0, 0)

/-- Decimal rounding helper for the display fields of an opportunity record. -/
def round_to (x : ℚ) (d : ℕ) : ℚ :=
  ((round (x * 10 ^ d) : ℤ) : ℚ) / 10 ^ d

/-- Net profit in USD after gas cost and flashloan fee, as computed by
`_check_arbitrage_direction`: USD gross profit minus the USD gas cost minus
the USD flashloan fee (the flashloan fee being 9 basis points on the borrowed
amount). -/
def net_profit_usd_calc (tin tout bt st : String) (bh sh : ℕ)
    (bp sp amount gwei eth : ℚ) : ℚ :=
  (gross_and_fee_usd tin tout (gross_profit_tokens bp sp) (amount * (9 / 10000))
      amount eth).1
    - estimate_transaction_cost_usd (estimate_arbitrage_gas bt st (max bh sh)) gwei eth
    - (gross_and_fee_usd tin tout (gross_profit_tokens bp sp) (amount * (9 / 10000))
        amount eth).2

/-- Detector configuration: percentage profitability threshold (as a fraction)
and the absolute USD dust floor. -/
structure ScanCfg where
  profit_threshold : ℚ
  min_profit_usd : ℚ
deriving Repr, DecidableEq

/-- Opportunity record appended by the detector. -/
structure Opportunity where
  token_in : String
  token_out : String
  buy_dex : String
  sell_dex : String
  buy_price : ℚ
  sell_price : ℚ
  profit_pct : ℚ
  profit_usd : ℚ
  gas_cost_usd : ℚ
  flashloan_fee_usd : ℚ
  gas_estimate : ℕ
  amount : ℚ
  buy_route : List String
  sell_route : List String
  is_multi_hop : Bool
  buy_num_hops : ℕ
  sell_num_hops : ℕ
deriving Repr, DecidableEq

/-- Embedding of `ScrollDEXScanner._check_arbitrage_direction`. Returns the
opportunity record appended for this direction, or `none` when no record is
appended. A zero buy price or a non-positive reference-asset price raises in
the source before anything is appended, hence `none`. -/
def check_arbitrage_direction (cfg : ScanCfg) (gas_price_gwei eth_price_usd : ℚ)
    (token_in token_out buy_dex sell_dex : String) (buy_price sell_price : ℚ)
    (buy_dex_type sell_dex_type : String) (buy_num_hops sell_num_hops : ℕ)
    (buy_route sell_route : List String) (amount : ℚ) : Option Opportunity :=
  if buy_price = 0 then none
  else if eth_price_usd ≤ 0 then none
  else
    let profit_tokens := gross_profit_tokens buy_price sell_price
    let gas_estimate := estimate_arbitrage_gas buy_dex_type sell_dex_type
      (max buy_num_hops sell_num_hops)
    let flashloan_fee_tokens := amount * (9 / 10000)
    let gas_cost_usd := estimate_transaction_cost_usd gas_estimate gas_price_gwei eth_price_usd
    let gf := gross_and_fee_usd token_in token_out profit_tokens flashloan_fee_tokens
      amount eth_price_usd
    let net_profit_usd := gf.1 - gas_cost_usd - gf.2
    let net_profit_pct_after_gas :=
      if 0 < amount * buy_price then net_profit_usd / (amount * buy_price) * 100 else 0
    if cfg.profit_threshold * 100 ≤ net_profit_pct_after_gas
        ∧ cfg.min_profit_usd ≤ net_profit_usd then
      some { token_in := token_in
             token_out := token_out
             buy_dex := buy_dex
             sell_dex := sell_dex
             buy_price := buy_price
             sell_price := sell_price
             profit_pct := round_to net_profit_pct_after_gas 4
             profit_usd := round_to net_profit_usd 2
             gas_cost_usd := round_to gas_cost_usd 4
             flashloan_fee_usd := round_to gf.2 4
             gas_estimate := gas_estimate
             amount := amount
             buy_route := buy_route
             sell_route := sell_route
             is_multi_hop := decide (2 < buy_route.length ∨ 2 < sell_route.length)
             buy_num_hops := buy_num_hops
             sell_num_hops := sell_num_hops }
    else none

/-- Quote entry of the per-pair price dictionary consumed by
`ScrollDEXScanner.find_arbitrage`; the hop count and route keys are optional
(direct-venue quotes omit them). -/
structure DexQuote where
  name : String
  price : ℚ
  dtype : String
  num_hops : Option ℕ
  route : Option (List String)
deriving Repr, DecidableEq

/-- Unordered pairs of quotes in iteration order (`for i, dex1 in enumerate:
for dex2 in dex_names[i+1:]`). -/
def unordered_pairs {α : Type} : List α → List (α × α)
  | [] => []
  | x :: xs => (xs.map fun y => (x, y)) ++ unordered_pairs xs

/-- Direction selection of `ScrollDEXScanner.find_arbitrage`: for every
unordered pair of quotes, the strictly cheaper quote becomes the buy leg and
the other the sell leg; equal prices produce no direction check. -/
def direction_checks (qs : List DexQuote) : List (DexQuote × DexQuote) :=
  (unordered_pairs qs).flatMap fun q =>
    if q.1.price < q.2.price then [(q.1, q.2)]
    else if q.2.price < q.1.price then [(q.2, q.1)]
    else []

/-- Embedding of `ScrollDEXScanner.find_arbitrage`: the opportunity records
appended over all direction checks of one token pair. -/
def find_arbitrage (cfg : ScanCfg) (gas_price_gwei eth_price_usd : ℚ)
    (token_in token_out : String) (qs : List DexQuote) (amount : ℚ) :
    List Opportunity :=
  (direction_checks qs).filterMap fun bs =>
    check_arbitrage_direction cfg gas_price_gwei eth_price_usd token_in token_out
      bs.1.name bs.2.name bs.1.price bs.2.price bs.1.dtype bs.2.dtype
      (bs.1.num_hops.getD 1) (bs.2.num_hops.getD 1)
      (bs.1.route.getD [token_in, token_out]) (bs.2.route.getD [token_in, token_out])
      amount

/-! ## Execution pipeline circuit breaker (`src/executor.py`) -/

/-- Circuit breaker state (`executor.CircuitBreaker`): configuration plus the
list of recent failure timestamps and the optional trip timestamp. Timestamps
are rationals (seconds). -/
structure CircuitBreaker where
  max_failures : ℕ
  time_window : ℚ
  cooldown : ℚ
  failures : List ℚ
  tripped_at : Option ℚ
deriving Repr, DecidableEq

/-- Embedding of `CircuitBreaker.record_failure` at wall-clock time `now`:
append the failure, prune entries at or before `now - time_window`, and trip
when the pruned count reaches `max_failures`. -/
def record_failure (cb : CircuitBreaker) (now : ℚ) : CircuitBreaker :=
  let fs := (cb.failures ++ [now]).filter fun f => now - cb.time_window < f
  if cb.max_failures ≤ fs.length then
    { cb with failures := fs, tripped_at := some now }
  else
    { cb with failures := fs }

/-- Embedding of `CircuitBreaker.record_success`: clears the failure history
immediately. -/
def record_success (cb : CircuitBreaker) : CircuitBreaker :=
  { cb with failures := [] }

/-- Embedding of `CircuitBreaker.is_tripped` at time `now`: not tripped when no
trip time is set; once the cooldown has elapsed past the trip time the breaker
self-resets (trip time cleared, failure history emptied) and reports not
tripped; otherwise it reports tripped with the state unchanged. -/
def is_tripped (cb : CircuitBreaker) (now : ℚ) : Bool × CircuitBreaker :=
  match cb.tripped_at with
  | none => (false, cb)
  | some t =>
    if cb.cooldown ≤ now - t then
      (false, { cb with tripped_at := none, failures := [] })
    else (true, cb)

/-- Status tag reported by `CircuitBreaker.get_status`. -/
inductive BreakerStatus where
  | operational
  | tripped
deriving Repr, DecidableEq

/-- Embedding of `CircuitBreaker.get_status`: the status field depends only on
whether a trip time is set. -/
def get_status (cb : CircuitBreaker) : BreakerStatus :=
  match cb.tripped_at with
  | some _ => .tripped
  | none => .operational

/-- Outcome of one `ArbitrageExecutor.evaluate_and_execute` call. -/
inductive EvalResult where
  | executed
  | breakerTripped
  | failed
deriving Repr, DecidableEq

/-- Embedding of the circuit-breaker skeleton of
`ArbitrageExecutor.evaluate_and_execute` at time `now`: the tripped check runs
first (and may self-reset the breaker after cooldown); while tripped the call
short-circuits with a breaker-tripped outcome recording no failure; otherwise
the inner validate/slippage/simulate/execute pipeline runs — its success is
abstracted into `pipeline_ok` — and any pipeline exception records a
circuit-breaker failure. -/
def evaluate_and_execute (cb : CircuitBreaker) (now : ℚ) (pipeline_ok : Bool) :
    EvalResult × CircuitBreaker :=
  let tc := is_tripped cb now
  if tc.1 then (.breakerTripped, tc.2)
  else if pipeline_ok then (.executed, tc.2)
  else (.failed, record_failure tc.2 now)

/-! ## MEV-aware submission layer (`utils/private_mempool.py`) -/

/-- Submission provider: name, availability flag, and the (externally
determined) outcome of invoking its send on this occasion — providers catch
their own exceptions and collapse them to an empty result. -/
structure Provider where
  name : String
  enabled : Bool
  send_result : Option String
deriving Repr, DecidableEq

/-- Provider loop of `PrivateMempoolManager.send_transaction`: skip unavailable
providers, return the first non-empty result, and advance past a failed
provider only when retrying on failure is enabled. -/
def try_providers (retry : Bool) : List Provider → Option String
  | [] => none
  | p :: rest =>
    if p.enabled = false then try_providers retry rest
    else
      match p.send_result with
      | some h => some h
      | none => if retry then try_providers retry rest else none

/-- Names of the providers whose send is actually invoked by the provider loop,
in invocation order. -/
def attempted (retry : Bool) : List Provider → List String
  | [] => []
  | p :: rest =>
    if p.enabled = false then attempted retry rest
    else
      match p.send_result with
      | some _ => [p.name]
      | none => if retry then p.name :: attempted retry rest else [p.name]

/-- Embedding of `PrivateMempoolManager.send_transaction`: in public mode the
standard-mempool provider is looked up by name and its result returned
directly (falling back to the provider loop when absent); otherwise the
provider loop runs. -/
def send_transaction (providers : List Provider)
    (prefer_private retry_on_failure : Bool) : Option String :=
  if prefer_private = false then
    match providers.find? fun p => p.name = "StandardMempool" with
    | some p => p.send_result
    | none => try_providers retry_on_failure providers
  else try_providers retry_on_failure providers

/-- Embedding of `PrivateMempoolManager.__init__`: the Flashbots and private
RPC providers are constructed enabled exactly when their URL is configured and
appended only when available; the standard public-mempool provider is always
appended last, always enabled. Send outcomes are passed in as parameters. -/
def init_providers (flashbots_url private_rpc_url : Option String)
    (flashbots_send private_send standard_send : Option String) : List Provider :=
  (if flashbots_url.isSome then
    [{ name := "Flashbots", enabled := true, send_result := flashbots_send }] else [])
  ++ (if private_rpc_url.isSome then
    [{ name := "PrivateRPC", enabled := true, send_result := private_send }] else [])
  ++ [{ name := "StandardMempool", enabled := true, send_result := standard_send }]

/-- Embedding of `PrivateMempoolManager.get_active_provider`: the name of the
first available provider; the source's literal string answer for an empty
result is modelled as `none`. -/
def get_active_provider (ps : List Provider) : Option String :=
  match ps.find? fun p => p.enabled with
  | some p => some p.name
  | none => none

/-! ## Gas and reference-asset price fetchers (`utils/gas_price.py`) -/

/-- Cache entry: value plus fetch timestamp (`gas_price.CacheEntry`). -/
structure CacheEntry where
  value : ℚ
  timestamp : ℚ
deriving Repr, DecidableEq

/-- Failure path of `GasPriceFetcher.get_gas_price_gwei`: the cached value when
strictly fresher than 300 seconds, else the hardcoded 0.02 gwei default (which
is cached). -/
def gas_fallback (cache : Option CacheEntry) (now : ℚ) : ℚ × Option CacheEntry :=
  match cache with
  | some e =>
    if now - e.timestamp < 300 then (e.value, some e)
    else (1 / 50, some { value := 1 / 50, timestamp := now })
  | none => (1 / 50, some { value := 1 / 50, timestamp := now })

/-- Embedding of `GasPriceFetcher.get_gas_price_gwei` at time `now`. The RPC
read is passed in as `rpc` (`none` for any of the caught failure classes; a
negative value is rejected in the source and handled identically). Returns the
price and the updated cache. A fresh cache short-circuits the fetch. -/
def get_gas_price_gwei (cache : Option CacheEntry) (cache_duration now : ℚ)
    (rpc : Option ℤ) : ℚ × Option CacheEntry :=
  match cache with
  | some e =>
    if now - e.timestamp < cache_duration then (e.value, some e)
    else
      match rpc with
      | some w =>
        if w < 0 then gas_fallback (some e) now
        else ((w : ℚ) / 1000000000, some { value := (w : ℚ) / 1000000000, timestamp := now })
      | none => gas_fallback (some e) now
  | none =>
    match rpc with
    | some w =>
      if w < 0 then gas_fallback none now
      else ((w : ℚ) / 1000000000, some { value := (w : ℚ) / 1000000000, timestamp := now })
    | none => gas_fallback none now

/-- Failure path of `ETHPriceFetcher.get_eth_price_usd`: the cached value when
strictly fresher than 1800 seconds, else the hardcoded 3500 USD default (which
is cached). -/
def eth_fallback (cache : Option CacheEntry) (now : ℚ) : ℚ × Option CacheEntry :=
  match cache with
  | some e =>
    if now - e.timestamp < 1800 then (e.value, some e)
    else (3500, some { value := 3500, timestamp := now })
  | none => (3500, some { value := 3500, timestamp := now })

/-- Embedding of `ETHPriceFetcher.get_eth_price_usd` at time `now`. The DEX
pool read and price computation are passed in as `fetch` (`none` when any step
of the read raised). Returns the price and the updated cache. -/
def get_eth_price_usd (cache : Option CacheEntry) (cache_duration now : ℚ)
    (fetch : Option ℚ) : ℚ × Option CacheEntry :=
  match cache with
  | some e =>
    if now - e.timestamp < cache_duration then (e.value, some e)
    else
      match fetch with
      | some p => (p, some { value := p, timestamp := now })
      | none => eth_fallback (some e) now
  | none =>
    match fetch with
    | some p => (p, some { value := p, timestamp := now })
    | none => eth_fallback none now

/-! ## Named symbols used in concrete scenarios -/

/-- Sample venue name. -/
def dexA : String := "DexA"

/-- Second sample venue name. -/
def dexB : String := "DexB"

/-- The volatile reference-asset symbol. -/
def wethSym : String := "WETH"

/-- A stablecoin symbol. -/
def usdcSym : String := "USDC"

/-- The constant-product family tag. -/
def v2Type : String := "uniswap_v2"

/-- Sample transaction hash returned by a successful send. -/
def txHash : String := "0xB"

/-- A failing first provider in the scenarios. -/
def provA : Provider := { name := dexA, enabled := true, send_result := none }

/-- A succeeding second provider in the scenarios. -/
def provB : Provider := { name := dexB, enabled := true, send_result := some txHash }

/-- A sample quote at price 2. -/
def quoteA : DexQuote :=
  { name := dexA, price := 2, dtype := v2Type, num_hops := none, route := none }

/-- A sample quote at price 3. -/
def quoteB : DexQuote :=
  { name := dexB, price := 3, dtype := v2Type, num_hops := none, route := none }

/-! ## Shared helper lemmas -/

/-- Strict Bernoulli inequality used for the fee-compounding comparison. -/
theorem one_sub_mul_lt_pow (f : ℚ) (hf0 : 0 < f) (hf1 : f < 1) :
    ∀ n : ℕ, 2 ≤ n → 1 - (n : ℚ) * f < (1 - f) ^ n := by
  intro n hn
  induction n with
  | zero => omega
  | succ m ih =>
    by_cases hm2 : 2 ≤ m
    · have h := ih hm2
      have h1f : (0 : ℚ) < 1 - f := by linarith
      have hmf : (0 : ℚ) ≤ (m : ℚ) * (f * f) := by positivity
      push_cast
      calc 1 - ((m : ℚ) + 1) * f
          ≤ 1 - ((m : ℚ) + 1) * f + (m : ℚ) * (f * f) := by linarith
        _ = (1 - (m : ℚ) * f) * (1 - f) := by ring
        _ < (1 - f) ^ m * (1 - f) := by exact mul_lt_mul_of_pos_right h h1f
        _ = (1 - f) ^ (m + 1) := (pow_succ _ _).symm
    · have hm1 : m = 1 := by omega
      subst hm1
      push_cast
      nlinarith [mul_pos hf0 hf0]

/-! ## Claim C3 -/

/-- C3 counterexample: for the 2-swap route at the default per-swap fee 0.003,
the compounded total fee is 0.5991% which is not greater than (indeed, is less
than) the naive 2·0.003·100 = 0.6%. -/
theorem estimate_route_cost_not_above_naive :
    (estimate_route_cost ["A", "B", "C"] 150000 (3 / 1000)).map
        (fun i => i.estimated_fee_pct) = some (5991 / 10000) ∧
    ¬ ((5991 / 10000 : ℚ) > 2 * (3 / 1000) * 100) := by
  constructor
  · norm_num [estimate_route_cost, Option.map]
  · norm_num

/-- C3 (amended): the route cost estimator returns
`total_fee% = (1 - (1 - f)^n) * 100`, which is strictly increasing in the swap
count for positive fee, and strictly LESS than the naive `n * f * 100` for
`n ≥ 2` and `f > 0` (linear fee summation overcounts; compounding reduces the
total). -/
theorem estimate_route_cost_spec (r1 r2 : List String) (g : ℤ) (f : ℚ)
    (i1 i2 : RouteInfo)
    (h1 : estimate_route_cost r1 g f = some i1)
    (h2 : estimate_route_cost r2 g f = some i2) :
    i1.estimated_fee_pct = (1 - (1 - f) ^ i1.num_swaps) * 100 ∧
    (0 < f → i1.num_swaps < i2.num_swaps →
      i1.estimated_fee_pct < i2.estimated_fee_pct) ∧
    (0 < f → 2 ≤ i1.num_swaps →
      i1.estimated_fee_pct < (i1.num_swaps : ℚ) * f * 100) := by
  simp only [estimate_route_cost] at h1 h2
  split_ifs at h1 h2 with hA hB hC hD
  have hf1 : f < 1 := by
    rcases not_or.mp hC with ⟨_, hc2⟩
    linarith [not_le.mp hc2]
  injection h1 with e1
  injection h2 with e2
  subst e1
  subst e2
  refine ⟨rfl, ?_, ?_⟩
  · intro hf hlt
    show (1 - (1 - f) ^ (r1.length - 1)) * 100 < (1 - (1 - f) ^ (r2.length - 1)) * 100
    have hpow : (1 - f) ^ (r2.length - 1) < (1 - f) ^ (r1.length - 1) :=
      pow_lt_pow_right_of_lt_one₀ (by linarith) (by linarith) hlt
    linarith [hpow]
  · intro hf hn
    show (1 - (1 - f) ^ (r1.length - 1)) * 100 < ((r1.length - 1 : ℕ) : ℚ) * f * 100
    have hb := one_sub_mul_lt_pow f hf hf1 (r1.length - 1) hn
    linarith [hb]

/-- C3 witness: concrete 2-swap and 3-swap routes at fee 1/2. -/
theorem estimate_route_cost_spec_witness :
    estimate_route_cost ["A", "B", "C"] 1 (1 / 2) =
      some { path := ["A", "B", "C"], num_swaps := 2, estimated_gas := 2,
             estimated_fee_pct := 75 } ∧
    estimate_route_cost ["A", "B", "C", "D"] 1 (1 / 2) =
      some { path := ["A", "B", "C", "D"], num_swaps := 3, estimated_gas := 3,
             estimated_fee_pct := 175 / 2 } ∧
    ((75 : ℚ) = (1 - (1 - 1 / 2) ^ 2) * 100 ∧
     ((0 : ℚ) < 1 / 2 → 2 < 3 → (75 : ℚ) < 175 / 2) ∧
     ((0 : ℚ) < 1 / 2 → 2 ≤ 2 → (75 : ℚ) < 2 * (1 / 2) * 100)) := by
  have h1 : estimate_route_cost ["A", "B", "C"] 1 (1 / 2) =
      some { path := ["A", "B", "C"], num_swaps := 2, estimated_gas := 2,
             estimated_fee_pct := 75 } := by
    norm_num [estimate_route_cost]
  have h2 : estimate_route_cost ["A", "B", "C", "D"] 1 (1 / 2) =
      some { path := ["A", "B", "C", "D"], num_swaps := 3, estimated_gas := 3,
             estimated_fee_pct := 175 / 2 } := by
    norm_num [estimate_route_cost]
  exact ⟨h1, h2, estimate_route_cost_spec _ _ _ _ _ _ h1 h2⟩

/-! ## Claim C9 -/

/-- C9: when the cache is too stale to short-circuit the fetch and the RPC read
fails, both price fetchers still return a definite value: the cached value when
it is within the fetcher's staleness bound (300 s for the gas price, 1800 s for
the reference-asset price), otherwise the hardcoded conservative default
(0.02 gwei, respectively 3500 USD), which is cached; with no cache at all they
return the default. -/
theorem price_fetchers_fallback (e : CacheEntry) (dur now : ℚ)
    (hstale : dur ≤ now - e.timestamp) :
    get_gas_price_gwei (some e) dur now none =
      (if now - e.timestamp < 300 then (e.value, some e)
       else (1 / 50, some { value := 1 / 50, timestamp := now })) ∧
    get_gas_price_gwei none dur now none =
      (1 / 50, some { value := 1 / 50, timestamp := now }) ∧
    get_eth_price_usd (some e) dur now none =
      (if now - e.timestamp < 1800 then (e.value, some e)
       else (3500, some { value := 3500, timestamp := now })) ∧
    get_eth_price_usd none dur now none =
      (3500, some { value := 3500, timestamp := now }) := by
  have hns : ¬ (now - e.timestamp < dur) := not_lt.mpr hstale
  refine ⟨?_, rfl, ?_, rfl⟩
  · simp only [get_gas_price_gwei, if_neg hns, gas_fallback]
  · simp only [get_eth_price_usd, if_neg hns, eth_fallback]

/-- C9 witness: a 100-second-old cache entry with a 60-second cache duration. -/
theorem price_fetchers_fallback_witness :
    (60 : ℚ) ≤ 100 - 0 ∧
    (get_gas_price_gwei (some { value := 5, timestamp := 0 }) 60 100 none =
      (if (100 : ℚ) - 0 < 300 then ((5 : ℚ), some { value := 5, timestamp := 0 })
       else (1 / 50, some { value := 1 / 50, timestamp := 100 })) ∧
    get_gas_price_gwei none 60 100 none =
      (1 / 50, some { value := 1 / 50, timestamp := 100 }) ∧
    get_eth_price_usd (some { value := 5, timestamp := 0 }) 60 100 none =
      (if (100 : ℚ) - 0 < 1800 then ((5 : ℚ), some { value := 5, timestamp := 0 })
       else (3500, some { value := 3500, timestamp := 100 })) ∧
    get_eth_price_usd none 60 100 none =
      (3500, some { value := 3500, timestamp := 100 })) :=
  ⟨by norm_num, price_fetchers_fallback { value := 5, timestamp := 0 } 60 100 (by norm_num)⟩

/-! ## Claim C10 -/

/-- C10: however the submission manager is configured, its provider list is
non-empty, ends with the always-enabled standard public-mempool provider, has
every listed provider enabled, reports an active provider (never the empty
sentinel), and resolves the standard provider that public-mode sends use. -/
theorem init_providers_invariant (fu pu fs ps ss : Option String) :
    init_providers fu pu fs ps ss ≠ [] ∧
    (init_providers fu pu fs ps ss).getLast? =
      some { name := "StandardMempool", enabled := true, send_result := ss } ∧
    (get_active_provider (init_providers fu pu fs ps ss)).isSome = true ∧
    (∀ p ∈ init_providers fu pu fs ps ss, p.enabled = true) ∧
    ((init_providers fu pu fs ps ss).find? fun p => p.name = "StandardMempool").isSome
      = true := by
  by_cases h1 : fu.isSome <;> by_cases h2 : pu.isSome <;>
    simp [init_providers, get_active_provider, h1, h2, List.getLast?, List.find?]

/-- C10 witness: the bare configuration with no private channel configured. -/
theorem init_providers_invariant_witness :
    init_providers none none none none none ≠ [] ∧
    (init_providers none none none none none).getLast? =
      some { name := "StandardMempool", enabled := true, send_result := none } ∧
    (get_active_provider (init_providers none none none none none)).isSome = true ∧
    (∀ p ∈ init_providers none none none none none, p.enabled = true) ∧
    ((init_providers none none none none none).find?
        fun p => p.name = "StandardMempool").isSome = true :=
  init_providers_invariant none none none none none

/-! ## Claim C2 -/

/-- Recording a failure when every stored failure is still inside the sliding
window appends the new timestamp without pruning, and trips exactly when the
resulting count reaches the failure bound. -/
theorem record_failure_eq (mf : ℕ) (w c : ℚ) (fs : List ℚ) (ta : Option ℚ) (now : ℚ)
    (h : ∀ f ∈ fs, now - w < f) (hw : 0 < w) :
    record_failure ⟨mf, w, c, fs, ta⟩ now =
      if mf ≤ fs.length + 1 then ⟨mf, w, c, fs ++ [now], some now⟩
      else ⟨mf, w, c, fs ++ [now], ta⟩ := by
  unfold record_failure
  have hf : (fs ++ [now]).filter (fun f => now - w < f) = fs ++ [now] := by
    apply List.filter_eq_self.mpr
    intro a ha
    simp only [List.mem_append, List.mem_singleton] at ha
    rcases ha with ha | rfl
    · simpa using h a ha
    · simpa using hw
  simp only [hf, List.length_append, List.length_singleton]

/-- C2: starting from a fresh breaker configured with `max_failures = 5`,
`window = 300 s`, `cooldown = 600 s`, five failures recorded at nondecreasing
times spanning strictly less than the window trip the breaker at the fifth
failure time with all five timestamps retained; while the cooldown has not
elapsed, an evaluation call short-circuits with the breaker-tripped outcome
and leaves the breaker state (in particular its failure history) unchanged;
once 600 seconds have elapsed past the trip, the tripped-status check
self-resets the breaker, which then reports operational with an empty failure
history. -/
theorem circuit_breaker_lifecycle (t1 t2 t3 t4 t5 now2 now3 : ℚ)
    (cb5 : CircuitBreaker)
    (h12 : t1 ≤ t2) (h23 : t2 ≤ t3) (h34 : t3 ≤ t4) (h45 : t4 ≤ t5)
    (hspan : t5 - t1 < 300)
    (hmid : now2 - t5 < 600)
    (hcool : 600 ≤ now3 - t5)
    (hcb5 : [t1, t2, t3, t4, t5].foldl record_failure
        ⟨5, 300, 600, [], none⟩ = cb5) :
    cb5 = ⟨5, 300, 600, [t1, t2, t3, t4, t5], some t5⟩ ∧
    get_status cb5 = .tripped ∧
    (∀ ok, evaluate_and_execute cb5 now2 ok = (.breakerTripped, cb5)) ∧
    is_tripped cb5 now3 = (false, ⟨5, 300, 600, [], none⟩) ∧
    get_status (is_tripped cb5 now3).2 = .operational ∧
    (is_tripped cb5 now3).2.failures = [] := by
  have h25 : t2 ≤ t5 := le_trans h23 (le_trans h34 h45)
  have h35 : t3 ≤ t5 := le_trans h34 h45
  have e1 : record_failure ⟨5, 300, 600, [], none⟩ t1 =
      ⟨5, 300, 600, [t1], none⟩ := by
    rw [record_failure_eq _ _ _ _ _ _ (by simp) (by norm_num)]
    norm_num
  have e2 : record_failure ⟨5, 300, 600, [t1], none⟩ t2 =
      ⟨5, 300, 600, [t1, t2], none⟩ := by
    rw [record_failure_eq _ _ _ _ _ _ ?_ (by norm_num)]
    · norm_num
    · intro f hf
      simp only [List.mem_singleton] at hf
      subst hf
      linarith
  have e3 : record_failure ⟨5, 300, 600, [t1, t2], none⟩ t3 =
      ⟨5, 300, 600, [t1, t2, t3], none⟩ := by
    rw [record_failure_eq _ _ _ _ _ _ ?_ (by norm_num)]
    · norm_num
    · intro f hf
      simp only [List.mem_cons, List.not_mem_nil, or_false] at hf
      rcases hf with rfl | rfl
      · linarith
      · linarith
  have e4 : record_failure ⟨5, 300, 600, [t1, t2, t3], none⟩ t4 =
      ⟨5, 300, 600, [t1, t2, t3, t4], none⟩ := by
    rw [record_failure_eq _ _ _ _ _ _ ?_ (by norm_num)]
    · norm_num
    · intro f hf
      simp only [List.mem_cons, List.not_mem_nil, or_false] at hf
      rcases hf with rfl | rfl | rfl
      · linarith
      · linarith
      · linarith
  have e5 : record_failure ⟨5, 300, 600, [t1, t2, t3, t4], none⟩ t5 =
      ⟨5, 300, 600, [t1, t2, t3, t4, t5], some t5⟩ := by
    rw [record_failure_eq _ _ _ _ _ _ ?_ (by norm_num)]
    · norm_num
    · intro f hf
      simp only [List.mem_cons, List.not_mem_nil, or_false] at hf
      rcases hf with rfl | rfl | rfl | rfl
      · linarith
      · linarith
      · linarith
      · linarith
  have hcb : cb5 = ⟨5, 300, 600, [t1, t2, t3, t4, t5], some t5⟩ := by
    rw [← hcb5]
    simp only [List.foldl_cons, List.foldl_nil, e1, e2, e3, e4, e5]
  subst hcb
  have hnottrip : ¬ ((600 : ℚ) ≤ now2 - t5) := not_le.mpr hmid
  refine ⟨rfl, rfl, ?_, ?_, ?_, ?_⟩
  · intro ok
    simp [evaluate_and_execute, is_tripped, hnottrip]
  · simp [is_tripped, hcool]
  · simp [is_tripped, hcool, get_status]
  · simp [is_tripped, hcool]

/-- C2 witness: failures at 0, 10, 20, 30, 40 seconds, an evaluation at 100 s
while tripped, and a status check at 700 s after the cooldown. -/
theorem circuit_breaker_lifecycle_witness :
    ([(0 : ℚ), 10, 20, 30, 40].foldl record_failure ⟨5, 300, 600, [], none⟩ =
      (⟨5, 300, 600, [0, 10, 20, 30, 40], some 40⟩ : CircuitBreaker)) ∧
    get_status ⟨5, 300, 600, [0, 10, 20, 30, 40], some 40⟩ = .tripped ∧
    evaluate_and_execute ⟨5, 300, 600, [0, 10, 20, 30, 40], some 40⟩ 100 true =
      (.breakerTripped, ⟨5, 300, 600, [0, 10, 20, 30, 40], some 40⟩) ∧
    is_tripped ⟨5, 300, 600, [0, 10, 20, 30, 40], some 40⟩ 700 =
      (false, ⟨5, 300, 600, [], none⟩) := by
  have hfold : [(0 : ℚ), 10, 20, 30, 40].foldl record_failure
      ⟨5, 300, 600, [], none⟩ =
      (⟨5, 300, 600, [0, 10, 20, 30, 40], some 40⟩ : CircuitBreaker) := by
    norm_num [List.foldl_cons, List.foldl_nil, record_failure, List.filter]
  have h := circuit_breaker_lifecycle 0 10 20 30 40 100 700 _
    (by norm_num) (by norm_num) (by norm_num) (by norm_num) (by norm_num)
    (by norm_num) (by norm_num) hfold
  exact ⟨hfold, h.2.1, h.2.2.1 true, h.2.2.2.1⟩

/-! ## Claim C5 -/

/-- C5: for positive reserves, fee in `[0, 1)` and positive input amount, the
slippage model's computed output amount equals
`a·(1-f)·Rout / (Rin + a·(1-f))` in human units, is strictly positive, is
strictly below the fee-free constant-product output `a·Rout / (Rin + a)` when
the fee is positive, and the computed slippage percentage is nonnegative. -/
theorem calculate_v2_slippage_spec (dex : String) (f : ℚ) (rin rout : ℕ)
    (tin tout : Token) (a : ℚ) (res : SlippageResult)
    (hrin : 0 < rin) (hrout : 0 < rout) (hf0 : 0 ≤ f) (hf1 : f < 1) (ha : 0 < a)
    (h : calculate_v2_slippage dex f (some (rin, rout)) tin tout a = some res) :
    res.amount_out =
      a * (1 - f) * ((rout : ℚ) / 10 ^ tout.decimals)
        / ((rin : ℚ) / 10 ^ tin.decimals + a * (1 - f)) ∧
    0 < res.amount_out ∧
    (0 < f → res.amount_out <
      a * ((rout : ℚ) / 10 ^ tout.decimals) / ((rin : ℚ) / 10 ^ tin.decimals + a)) ∧
    0 ≤ res.slippage_pct := by
  have hpin : (0 : ℚ) < 10 ^ tin.decimals := by positivity
  have hpout : (0 : ℚ) < 10 ^ tout.decimals := by positivity
  have hrinq : (0 : ℚ) < (rin : ℚ) := by exact_mod_cast hrin
  have hroutq : (0 : ℚ) < (rout : ℚ) := by exact_mod_cast hrout
  have hRin : (0 : ℚ) < (rin : ℚ) / 10 ^ tin.decimals := div_pos hrinq hpin
  have hRout : (0 : ℚ) < (rout : ℚ) / 10 ^ tout.decimals := div_pos hroutq hpout
  have h1f : (0 : ℚ) < 1 - f := by linarith
  have haf : (0 : ℚ) < a * (1 - f) := mul_pos ha h1f
  have hafw : (0 : ℚ) < a * (1 - f) * 10 ^ tin.decimals := mul_pos haf hpin
  have hden : (0 : ℚ) < (rin : ℚ) + a * (1 - f) * 10 ^ tin.decimals := by linarith
  have hden2 : (0 : ℚ) < (rin : ℚ) / 10 ^ tin.decimals + a * (1 - f) := by linarith
  have hspot : (0 : ℚ) <
      (rout : ℚ) / 10 ^ tout.decimals / ((rin : ℚ) / 10 ^ tin.decimals) :=
    div_pos hRout hRin
  simp only [calculate_v2_slippage] at h
  rw [if_neg hRin.ne', if_neg ha.ne', if_neg hspot.ne'] at h
  injection h with hres
  have hao : res.amount_out =
      a * (1 - f) * 10 ^ tin.decimals * (rout : ℚ)
        / ((rin : ℚ) + a * (1 - f) * 10 ^ tin.decimals) / 10 ^ tout.decimals := by
    rw [← hres]
  have hsl : res.slippage_pct =
      ((rout : ℚ) / 10 ^ tout.decimals / ((rin : ℚ) / 10 ^ tin.decimals)
          - a * (1 - f) * 10 ^ tin.decimals * (rout : ℚ)
              / ((rin : ℚ) + a * (1 - f) * 10 ^ tin.decimals) / 10 ^ tout.decimals / a)
        / ((rout : ℚ) / 10 ^ tout.decimals / ((rin : ℚ) / 10 ^ tin.decimals)) * 100 := by
    rw [← hres]
  have key : a * (1 - f) * 10 ^ tin.decimals * (rout : ℚ)
        / ((rin : ℚ) + a * (1 - f) * 10 ^ tin.decimals) / 10 ^ tout.decimals
      = a * (1 - f) * ((rout : ℚ) / 10 ^ tout.decimals)
        / ((rin : ℚ) / 10 ^ tin.decimals + a * (1 - f)) := by
    rw [div_eq_div_iff (by positivity) (by positivity)]
    field_simp
    ring
  refine ⟨by rw [hao, key], ?_, ?_, ?_⟩
  · rw [hao, key]
    exact div_pos (mul_pos haf hRout) hden2
  · intro hf
    rw [hao, key]
    rw [div_lt_div_iff₀ hden2 (by linarith : (0 : ℚ) < (rin : ℚ) / 10 ^ tin.decimals + a)]
    have haux : (0 : ℚ) <
        a * f * ((rout : ℚ) / 10 ^ tout.decimals) * ((rin : ℚ) / 10 ^ tin.decimals) :=
      mul_pos (mul_pos (mul_pos ha hf) hRout) hRin
    nlinarith [haux]
  · rw [hsl]
    have heff_le : a * (1 - f) * 10 ^ tin.decimals * (rout : ℚ)
          / ((rin : ℚ) + a * (1 - f) * 10 ^ tin.decimals) / 10 ^ tout.decimals / a
        ≤ (rout : ℚ) / 10 ^ tout.decimals / ((rin : ℚ) / 10 ^ tin.decimals) := by
      rw [key, div_div]
      rw [div_le_div_iff₀ (mul_pos hden2 ha) hRin]
      have haux2 : (0 : ℚ) ≤ a * ((rout : ℚ) / 10 ^ tout.decimals)
          * (f * ((rin : ℚ) / 10 ^ tin.decimals) + a * (1 - f)) :=
        mul_nonneg (mul_pos ha hRout).le
          (add_nonneg (mul_nonneg hf0 hRin.le) haf.le)
      nlinarith [haux2]
    exact mul_nonneg (div_nonneg (sub_nonneg.mpr heff_le) hspot.le) (by norm_num)

/-- C5 witness: a unit pool with fee 1/2 and unit trade. -/
theorem calculate_v2_slippage_spec_witness :
    calculate_v2_slippage dexA (1 / 2) (some (1, 1))
        { symbol := wethSym, decimals := 0 } { symbol := usdcSym, decimals := 0 } 1 =
      some { dex := dexA, reserve_in := 1, reserve_out := 1, amount_in := 1,
             amount_out := 1 / 3, spot_price := 1, effective_price := 1 / 3,
             price_impact_pct := 100, slippage_pct := 200 / 3, liquidity_frac := 1,
             is_high_impact := true, is_very_high_impact := true } ∧
    (0 : ℚ) < 1 / 3 ∧ (0 : ℚ) ≤ 200 / 3 := by
  have hw : calculate_v2_slippage dexA (1 / 2) (some (1, 1))
      { symbol := wethSym, decimals := 0 } { symbol := usdcSym, decimals := 0 } 1 =
      some { dex := dexA, reserve_in := 1, reserve_out := 1, amount_in := 1,
             amount_out := 1 / 3, spot_price := 1, effective_price := 1 / 3,
             price_impact_pct := 100, slippage_pct := 200 / 3, liquidity_frac := 1,
             is_high_impact := true, is_very_high_impact := true } := by
    norm_num [calculate_v2_slippage]
  have h := calculate_v2_slippage_spec dexA (1 / 2) 1 1
    { symbol := wethSym, decimals := 0 } { symbol := usdcSym, decimals := 0 } 1 _
    (by norm_num) (by norm_num) (by norm_num) (by norm_num) (by norm_num) hw
  exact ⟨hw, h.2.1, h.2.2.2⟩

/-! ## Claim C4 -/

/-- C4: with both venues configured as constant-product, the two-leg slippage
validator fails closed (returns a failed check with no breakdown) whenever
either leg's pool computation cannot be resolved; otherwise the sell leg is
computed with the buy leg's output amount as its input, the two legs' slippage
percentages are summed, and the check passes exactly when the sum is at or
below the slippage bound (boundary inclusive). -/
theorem validate_arbitrage_slippage_spec
    (dexes : String → Option DexCfg) (pools : String → Token → Token → Option (ℕ × ℕ))
    (buy_dex sell_dex : String) (tin tout : Token) (amount max_slippage_pct : ℚ)
    (bcfg scfg : DexCfg)
    (hb : dexes buy_dex = some bcfg) (hs : dexes sell_dex = some scfg)
    (hbt : bcfg.dtype = "uniswap_v2") (hst : scfg.dtype = "uniswap_v2") :
    (calculate_v2_slippage buy_dex bcfg.fee (pools buy_dex tin tout) tin tout amount
        = none →
      validate_arbitrage_slippage dexes pools buy_dex sell_dex tin tout amount
        max_slippage_pct = (false, none)) ∧
    (∀ bs, calculate_v2_slippage buy_dex bcfg.fee (pools buy_dex tin tout) tin tout amount
        = some bs →
      (calculate_v2_slippage sell_dex scfg.fee (pools sell_dex tout tin) tout tin
          bs.amount_out = none →
        validate_arbitrage_slippage dexes pools buy_dex sell_dex tin tout amount
          max_slippage_pct = (false, none)) ∧
      (∀ ss, calculate_v2_slippage sell_dex scfg.fee (pools sell_dex tout tin) tout tin
          bs.amount_out = some ss →
        validate_arbitrage_slippage dexes pools buy_dex sell_dex tin tout amount
          max_slippage_pct =
          (decide (bs.slippage_pct + ss.slippage_pct ≤ max_slippage_pct),
           some { buy := some bs, sell := some ss,
                  total_slippage_pct := bs.slippage_pct + ss.slippage_pct,
                  is_valid :=
                    decide (bs.slippage_pct + ss.slippage_pct ≤ max_slippage_pct) }))) := by
  refine ⟨?_, ?_⟩
  · intro h0
    simp [validate_arbitrage_slippage, hb, hs, hbt, hst, h0]
  · intro bs hbs
    refine ⟨?_, ?_⟩
    · intro h0
      simp [validate_arbitrage_slippage, hb, hs, hbt, hst, hbs, h0]
    · intro ss hss
      simp [validate_arbitrage_slippage, hb, hs, hbt, hst, hbs, hss]

/-- C4 witness: an unresolvable buy-leg pool fails the check. -/
theorem validate_arbitrage_slippage_spec_witness :
    calculate_v2_slippage dexA 0 none { symbol := wethSym, decimals := 0 }
        { symbol := usdcSym, decimals := 0 } 1 = none ∧
    validate_arbitrage_slippage (fun _ => some { dtype := "uniswap_v2", fee := 0 })
        (fun _ _ _ => none) dexA dexB { symbol := wethSym, decimals := 0 }
        { symbol := usdcSym, decimals := 0 } 1 2 = (false, none) :=
  ⟨rfl,
   (validate_arbitrage_slippage_spec (fun _ => some { dtype := "uniswap_v2", fee := 0 })
      (fun _ _ _ => none) dexA dexB { symbol := wethSym, decimals := 0 }
      { symbol := usdcSym, decimals := 0 } 1 2 _ _ rfl rfl rfl rfl).1 rfl⟩

/-! ## Claim C7 -/

/-- The provider loop returns an empty result exactly when every available
provider's send fails. -/
theorem try_providers_none_iff (ps : List Provider) :
    try_providers true ps = none ↔
      ∀ p ∈ ps, p.enabled = true → p.send_result = none := by
  induction ps with
  | nil => simp [try_providers]
  | cons p rest ih =>
    by_cases hp : p.enabled = false
    · simp [try_providers, hp, ih]
    · have hp' : p.enabled = true := by revert hp; cases p.enabled <;> simp
      cases hsr : p.send_result with
      | some h => simp [try_providers, hp', hsr]
      | none => simp [try_providers, hp', hsr, ih]

/-- A successful provider-loop send decomposes the provider list around the
first available provider whose send returns non-empty: every earlier available
provider failed, the hash is that provider's, and exactly the available
providers up to and including it were invoked, in list order. -/
theorem try_providers_some (ps : List Provider) (h : String)
    (hsend : try_providers true ps = some h) :
    ∃ l1 p l2, ps = l1 ++ p :: l2 ∧ p.enabled = true ∧ p.send_result = some h ∧
      (∀ q ∈ l1, q.enabled = true → q.send_result = none) ∧
      attempted true ps =
        ((l1.filter fun q => q.enabled).map fun q => q.name) ++ [p.name] := by
  induction ps with
  | nil => simp [try_providers] at hsend
  | cons p rest ih =>
    by_cases hp : p.enabled = false
    · obtain ⟨l1, q, l2, heq, hqe, hqs, hl1, hatt⟩ :=
        ih (by simpa [try_providers, hp] using hsend)
      refine ⟨p :: l1, q, l2, by rw [heq]; rfl, hqe, hqs, ?_, ?_⟩
      · intro x hx hxe
        rcases List.mem_cons.mp hx with rfl | hx'
        · rw [hp] at hxe
          exact absurd hxe (by simp)
        · exact hl1 x hx' hxe
      · simp [attempted, hp, hatt, List.filter_cons]
    · have hp' : p.enabled = true := by revert hp; cases p.enabled <;> simp
      cases hsr : p.send_result with
      | some h' =>
        have hh : h' = h := by simpa [try_providers, hp', hsr] using hsend
        subst hh
        exact ⟨[], p, rest, rfl, hp', hsr, by simp, by simp [attempted, hp', hsr]⟩
      | none =>
        obtain ⟨l1, q, l2, heq, hqe, hqs, hl1, hatt⟩ :=
          ih (by simpa [try_providers, hp', hsr] using hsend)
        refine ⟨p :: l1, q, l2, by rw [heq]; rfl, hqe, hqs, ?_, ?_⟩
        · intro x hx hxe
          rcases List.mem_cons.mp hx with rfl | hx'
          · exact hsr
          · exact hl1 x hx' hxe
        · simp [attempted, hp', hsr, hatt, List.filter_cons]

/-- C7: in prefer-private mode with retry enabled, the best-effort send tries
providers strictly in list order, returns the hash of the first available
provider whose send returns non-empty without invoking any later provider,
advances past a provider only when its send fails, and returns an empty result
exactly when every available provider's send fails. -/
theorem send_best_effort_spec (ps : List Provider) :
    (send_transaction ps true true = none ↔
      ∀ p ∈ ps, p.enabled = true → p.send_result = none) ∧
    (∀ h, send_transaction ps true true = some h →
      ∃ l1 p l2, ps = l1 ++ p :: l2 ∧ p.enabled = true ∧ p.send_result = some h ∧
        (∀ q ∈ l1, q.enabled = true → q.send_result = none) ∧
        attempted true ps =
          ((l1.filter fun q => q.enabled).map fun q => q.name) ++ [p.name]) := by
  have hst : send_transaction ps true true = try_providers true ps := by
    simp [send_transaction]
  rw [hst]
  exact ⟨try_providers_none_iff ps, fun h hh => try_providers_some ps h hh⟩

/-- C7 witness: provider order (A fails, B succeeds) returns the hash from B. -/
theorem send_best_effort_spec_witness :
    send_transaction [provA, provB] true true = some txHash ∧
    (∃ l1 p l2, [provA, provB] = l1 ++ p :: l2 ∧ p.enabled = true ∧
      p.send_result = some txHash ∧
      (∀ q ∈ l1, q.enabled = true → q.send_result = none) ∧
      attempted true [provA, provB] =
        ((l1.filter fun q => q.enabled).map fun q => q.name) ++ [p.name]) := by
  have hsend : send_transaction [provA, provB] true true = some txHash := by
    simp [send_transaction, try_providers, provA, provB]
  exact ⟨hsend, (send_best_effort_spec [provA, provB]).2 txHash hsend⟩

/-! ## Claim C8 -/

/-- C8: every direction check produced from the per-pair quote dictionary has
the strictly cheaper quote as its buy leg; every unordered pair with distinct
prices contributes its direction check with the cheaper quote as buy leg;
pairs with equal prices contribute no check in either orientation; and the
gross profit the check computes is exactly the fee-inclusive price difference
`sell − buy`, with no further fee adjustment. -/
theorem find_arbitrage_direction_selection (qs : List DexQuote) :
    (∀ c ∈ direction_checks qs, c.1.price < c.2.price) ∧
    (∀ p ∈ unordered_pairs qs, p.1.price < p.2.price →
      (p.1, p.2) ∈ direction_checks qs) ∧
    (∀ p ∈ unordered_pairs qs, p.2.price < p.1.price →
      (p.2, p.1) ∈ direction_checks qs) ∧
    (∀ p ∈ unordered_pairs qs, p.1.price = p.2.price →
      (p.1, p.2) ∉ direction_checks qs ∧ (p.2, p.1) ∉ direction_checks qs) ∧
    (∀ b s : ℚ, gross_profit_tokens b s = s - b) := by
  have hc : ∀ c ∈ direction_checks qs, c.1.price < c.2.price := by
    intro c hcm
    simp only [direction_checks, List.mem_flatMap] at hcm
    obtain ⟨q, _, hcq⟩ := hcm
    split_ifs at hcq with h1 h2
    · simp only [List.mem_singleton] at hcq
      subst hcq
      exact h1
    · simp only [List.mem_singleton] at hcq
      subst hcq
      exact h2
    · simp at hcq
  refine ⟨hc, ?_, ?_, ?_, fun b s => rfl⟩
  · intro p hp hlt
    simp only [direction_checks, List.mem_flatMap]
    exact ⟨p, hp, by rw [if_pos hlt]; simp⟩
  · intro p hp hlt
    have hne : ¬ p.1.price < p.2.price := asymm hlt
    simp only [direction_checks, List.mem_flatMap]
    exact ⟨p, hp, by rw [if_neg hne, if_pos hlt]; simp⟩
  · intro p hp heq
    constructor
    · intro hmem
      have := hc _ hmem
      simp only at this
      rw [heq] at this
      exact lt_irrefl _ this
    · intro hmem
      have := hc _ hmem
      simp only at this
      rw [heq] at this
      exact lt_irrefl _ this

/-- C8 witness: two quotes at prices 2 and 3; the pair is checked with the
price-2 quote as the buy leg. -/
theorem find_arbitrage_direction_selection_witness :
    (quoteA, quoteB) ∈ unordered_pairs [quoteA, quoteB] ∧
    quoteA.price < quoteB.price ∧
    (quoteA, quoteB) ∈ direction_checks [quoteA, quoteB] := by
  have hmem : (quoteA, quoteB) ∈ unordered_pairs [quoteA, quoteB] := by
    simp [unordered_pairs]
  have hlt : quoteA.price < quoteB.price := by norm_num [quoteA, quoteB]
  exact ⟨hmem, hlt, (find_arbitrage_direction_selection [quoteA, quoteB]).2.1 _ hmem hlt⟩

/-! ## Claim C1 -/

/-- C1: for a checked direction (with a nonzero buy price, a positive
reference-asset price and a positive notional), an opportunity record is
appended if and only if both thresholds hold — the net profit percentage
`net_usd / (amount · buy_price) · 100` is at least the configured percentage
threshold AND the net USD profit is at least the configured dust floor — and
the appended record's profit fields are the computed values rounded to 4 and 2
decimal places respectively. -/
theorem check_arbitrage_direction_spec (cfg : ScanCfg) (gwei eth : ℚ)
    (tin tout bdex sdex : String) (bp sp : ℚ) (bt st : String) (bh sh : ℕ)
    (br sr : List String) (amount : ℚ)
    (heth : 0 < eth) (hbp : ¬ bp = 0) (hpos : 0 < amount * bp) :
    ((check_arbitrage_direction cfg gwei eth tin tout bdex sdex bp sp bt st bh sh
        br sr amount).isSome = true ↔
      (cfg.profit_threshold * 100 ≤
          net_profit_usd_calc tin tout bt st bh sh bp sp amount gwei eth
            / (amount * bp) * 100 ∧
        cfg.min_profit_usd ≤
          net_profit_usd_calc tin tout bt st bh sh bp sp amount gwei eth)) ∧
    (∀ o, check_arbitrage_direction cfg gwei eth tin tout bdex sdex bp sp bt st bh sh
        br sr amount = some o →
      o.profit_pct = round_to
        (net_profit_usd_calc tin tout bt st bh sh bp sp amount gwei eth
          / (amount * bp) * 100) 4 ∧
      o.profit_usd = round_to
        (net_profit_usd_calc tin tout bt st bh sh bp sp amount gwei eth) 2 ∧
      o.buy_dex = bdex ∧ o.sell_dex = sdex ∧ o.buy_price = bp ∧ o.sell_price = sp) := by
  have hethn : ¬ eth ≤ 0 := not_le.mpr heth
  simp only [check_arbitrage_direction] at *
  rw [if_neg hbp, if_neg hethn, if_pos hpos]
  constructor
  · split_ifs with hcond
    · exact iff_of_true rfl hcond
    · exact iff_of_false (by simp) hcond
  · intro o ho
    split_ifs at ho with hcond
    injection ho with ho
    rw [← ho]
    exact ⟨rfl, rfl, rfl, rfl, rfl, rfl⟩

/-- C1 witness: buy 3500, sell 3520, amount 1, threshold 0.5 %, dust floor 1
USD, stablecoin output leg, zero gas price: both bounds hold and an
opportunity is appended. -/
theorem check_arbitrage_direction_spec_witness :
    (0 : ℚ) < 3500 ∧ ¬ (3500 : ℚ) = 0 ∧ (0 : ℚ) < 1 * 3500 ∧
    (check_arbitrage_direction { profit_threshold := 1 / 200, min_profit_usd := 1 }
        0 3500 wethSym usdcSym dexA dexB 3500 3520 v2Type v2Type 1 1
        [wethSym, usdcSym] [wethSym, usdcSym] 1).isSome = true := by
  have h := check_arbitrage_direction_spec
    { profit_threshold := 1 / 200, min_profit_usd := 1 } 0 3500 wethSym usdcSym
    dexA dexB 3500 3520 v2Type v2Type 1 1 [wethSym, usdcSym] [wethSym, usdcSym] 1
    (by norm_num) (by norm_num) (by norm_num)
  refine ⟨by norm_num, by norm_num, by norm_num, h.1.mpr ⟨?_, ?_⟩⟩
  · norm_num [net_profit_usd_calc, gross_and_fee_usd, gross_profit_tokens,
      estimate_transaction_cost_usd, estimate_arbitrage_gas, usdcSym, wethSym, v2Type]
  · norm_num [net_profit_usd_calc, gross_and_fee_usd, gross_profit_tokens,
      estimate_transaction_cost_usd, estimate_arbitrage_gas, usdcSym, wethSym, v2Type]

/-! ## Claim C6 -/

/-- Routes accumulated with deduplication all come from the accumulator or the
candidate list. -/
theorem mem_foldl_addRoute (l acc : List (List String)) (x : List String)
    (hx : x ∈ l.foldl addRoute acc) : x ∈ acc ∨ x ∈ l := by
  induction l generalizing acc with
  | nil => exact Or.inl hx
  | cons r t ih =>
    rcases ih (addRoute acc r) hx with h | h
    · unfold addRoute at h
      split_ifs at h with hc
      · exact Or.inl h
      · rcases List.mem_append.mp h with h' | h'
        · exact Or.inl h'
        · simp only [List.mem_singleton] at h'
          exact Or.inr (h' ▸ List.mem_cons_self r t)
    · exact Or.inr (List.mem_cons_of_mem r h)

/-- Deduplicated accumulation preserves the no-exact-duplicates property. -/
theorem nodup_foldl_addRoute (l acc : List (List String)) (h : acc.Nodup) :
    (l.foldl addRoute acc).Nodup := by
  induction l generalizing acc with
  | nil => exact h
  | cons r t ih =>
    apply ih
    unfold addRoute
    split_ifs with hc
    · exact h
    · have hr : r ∉ acc := fun hmem => hc (by simpa using hmem)
      simp [List.nodup_append, h, hr]

/-- Every candidate route of the pairwise router is a simple path whose hop
count respects the hop bound. -/
theorem mem_candidate_routes (bts : List String) (tin tout : String)
    (usable : List String → Bool) (mh : ℤ) (r : List String)
    (hne : tin ≠ tout) (hmh : 1 ≤ mh)
    (hr : r ∈ candidate_routes bts tin tout usable mh) :
    r.Nodup ∧ (r.length : ℤ) - 1 ≤ mh := by
  simp only [candidate_routes, List.mem_append] at hr
  rcases hr with (hd | h2) | h3
  · split_ifs at hd with hc
    · simp only [List.mem_singleton] at hd
      subst hd
      refine ⟨?_, by simpa using hmh⟩
      simp [hne]
    · simp at hd
  · split_ifs at h2 with hc2
    · simp only [List.mem_flatMap] at h2
      obtain ⟨b, _, hrb⟩ := h2
      split_ifs at hrb with hg hu
      · simp at hrb
      · simp only [List.mem_singleton] at hrb
        subst hrb
        rcases not_or.mp hg with ⟨hbtin, hbtout⟩
        refine ⟨?_, by simpa using hc2⟩
        refine List.nodup_cons.mpr ⟨?_, List.nodup_cons.mpr
          ⟨?_, List.nodup_singleton _⟩⟩
        · simp only [List.mem_cons, List.not_mem_nil, or_false]
          push_neg
          exact ⟨fun h => hbtin h.symm, hne⟩
        · simp only [List.mem_cons, List.not_mem_nil, or_false]
          exact hbtout
      · simp at hrb
    · simp at h2
  · split_ifs at h3 with hc3
    · simp only [List.mem_flatMap] at h3
      obtain ⟨b1, _, h3'⟩ := h3
      obtain ⟨b2, _, hrb⟩ := h3'
      split_ifs at hrb with hg hu
      · simp at hrb
      · simp only [List.mem_singleton] at hrb
        subst hrb
        have hg' := not_or.mp hg
        obtain ⟨h12, hg''⟩ := hg'
        obtain ⟨h1in, hg3⟩ := not_or.mp hg''
        obtain ⟨h1out, hg4⟩ := not_or.mp hg3
        obtain ⟨h2in, h2out⟩ := not_or.mp hg4
        refine ⟨?_, by simpa using hc3.1⟩
        refine List.nodup_cons.mpr ⟨?_, List.nodup_cons.mpr ⟨?_,
          List.nodup_cons.mpr ⟨?_, List.nodup_singleton _⟩⟩⟩
        · simp only [List.mem_cons, List.not_mem_nil, or_false]
          push_neg
          exact ⟨fun h => h1in h.symm, fun h => h2in h.symm, hne⟩
        · simp only [List.mem_cons, List.not_mem_nil, or_false]
          push_neg
          exact ⟨h12, h1out⟩
        · simp only [List.mem_cons, List.not_mem_nil, or_false]
          exact h2out
      · simp at hrb
    · simp at h3

/-- The capped path accumulator never exceeds a positive path cap. -/
theorem foldl_pushPath_length_le (mp : ℕ) (l : List (List String))
    (st : List (List String) × Bool)
    (hst : (st.2 = false → st.1.length < mp) ∧ (st.2 = true → st.1.length ≤ mp)) :
    (l.foldl (pushPath mp) st).1.length ≤ mp := by
  induction l generalizing st with
  | nil =>
    cases hb : st.2
    · exact le_of_lt (hst.1 hb)
    · exact hst.2 hb
  | cons p t ih =>
    apply ih
    unfold pushPath
    split_ifs with h1 h2
    · exact hst
    · exact hst
    · have h1f : st.2 = false := by revert h1; cases st.2 <;> simp
      have hlt : st.1.length < mp := hst.1 h1f
      constructor
      · intro hflag
        have hnot : ¬ (mp ≤ (st.1 ++ [p]).length) := by simpa using hflag
        simp only [List.length_append, List.length_singleton] at hnot ⊢
        omega
      · intro _
        simp only [List.length_append, List.length_singleton]
        omega

/-- C6 counterexample: with two base tokens, the router returns both
`[A, W, X, B]` and `[A, X, W, B]` — two distinct permutations of the same
route; moreover, because the cap check runs only after an append, a zero path
cap is exceeded by the first generated circular path. -/
theorem find_routes_two_permutations :
    find_routes ["W", "X"] "A" "B" none 3 =
      some [["A", "B"], ["A", "W", "B"], ["A", "X", "B"],
            ["A", "W", "X", "B"], ["A", "X", "W", "B"]] ∧
    (["A", "W", "X", "B"] : List String).Perm ["A", "X", "W", "B"] ∧
    (["A", "W", "X", "B"] : List String) ≠ ["A", "X", "W", "B"] ∧
    find_arbitrage_paths ["W", "U"] "W" 2 0 = some [["W", "U", "W"]] := by
  refine ⟨by decide, by decide, by decide, by decide⟩

/-- C6 (amended): route generation is bounded and clean up to exact-sequence
deduplication — every route returned by the router is a simple path (no token
repeats) whose hop count (length minus one) is within the validated hop bound,
the returned list contains no exact duplicate routes (though two distinct
orderings of the same token set may both legitimately appear), and, for a
positive path cap, circular path generation returns at most the cap's worth of
paths (stopping with the partial set when the cap is hit). -/
theorem route_generation_clean (bts : List String) (tin tout : String)
    (aps : Option (List (String × String))) (mh : ℤ)
    (routes : List (List String))
    (hfr : find_routes bts tin tout aps mh = some routes)
    (tokens : List String) (start : String) (mh2 : ℤ) (mp : ℕ)
    (paths : List (List String)) (hmp : 1 ≤ mp)
    (hfp : find_arbitrage_paths tokens start mh2 mp = some paths) :
    routes.Nodup ∧
    (∀ r ∈ routes, r.Nodup ∧ (r.length : ℤ) - 1 ≤ mh) ∧
    paths.length ≤ mp := by
  simp only [find_routes] at hfr
  split_ifs at hfr with hA hB hC
  injection hfr with hfr
  subst hfr
  have hne : tin ≠ tout := hB
  have hmh1 : 1 ≤ mh := by
    rcases not_or.mp hC with ⟨h1, _⟩
    omega
  refine ⟨nodup_foldl_addRoute _ [] List.nodup_nil, ?_, ?_⟩
  · intro r hr
    rcases mem_foldl_addRoute _ _ _ hr with h | h
    · simp at h
    · exact mem_candidate_routes bts tin tout _ mh r hne hmh1 h
  · simp only [find_arbitrage_paths] at hfp
    split_ifs at hfp with hD hE hF
    injection hfp with hfp
    subst hfp
    exact foldl_pushPath_length_le mp _ _ ⟨fun _ => hmp, fun hco => by simp at hco⟩

/-- C6 witness: one base token and a two-token universe. -/
theorem route_generation_clean_witness :
    find_routes ["W"] "A" "B" none 2 = some [["A", "B"], ["A", "W", "B"]] ∧
    find_arbitrage_paths ["W", "U"] "W" 2 5 = some [["W", "U", "W"]] ∧
    (([["A", "B"], ["A", "W", "B"]] : List (List String)).Nodup ∧
     (∀ r ∈ ([["A", "B"], ["A", "W", "B"]] : List (List String)),
       r.Nodup ∧ (r.length : ℤ) - 1 ≤ 2) ∧
     ([["W", "U", "W"]] : List (List String)).length ≤ 5) := by
  have h1 : find_routes ["W"] "A" "B" none 2 = some [["A", "B"], ["A", "W", "B"]] := by
    decide
  have h2 : find_arbitrage_paths ["W", "U"] "W" 2 5 = some [["W", "U", "W"]] := by
    decide
  exact ⟨h1, h2, route_generation_clean _ _ _ _ _ _ h1 _ _ _ _ _ (by norm_num) h2⟩

end Sonicarbi
